import Mathlib

/-!
Verification development for the writing-assistant prompt-refinement app.

The development shallowly embeds the multi-provider AI orchestration layer:
the JSON value model and a model of the host JSON.parse routine, the response
normalizer (extractJson and adaptToBeliefState from services/aiAdapter.ts),
the gemini pipeline (parsePromptToBeliefGraph, withRetry, isRetryableError,
handleContentWithTools, executeTool, refinePromptWithAllUpdates from
services/geminiService.ts), and the request-coordination and reconciliation
state handlers of App.tsx (handleModeChange, refreshAnalysis commit checks,
handleApplyAllUpdates). JavaScript exceptions are modelled with Except,
JavaScript objects with association lists of string keys, and the absent
value undefined with Option.
-/

set_option maxHeartbeats 1000000

namespace WA

/-- JSON values. Numbers keep their source lexeme, which is enough for the
properties studied here and avoids floating-point semantics. -/
inductive Json where
  | null : Json
  | bool : Bool → Json
  | num : String → Json
  | str : String → Json
  | arr : List Json → Json
  | obj : List (String × Json) → Json

/-- Lookup of a key in an object field list (first occurrence wins, as in a
JavaScript object, whose keys are unique). -/
def lookupField : List (String × Json) → String → Option Json
  | [], _ => none
  | (k', v') :: rest, k => if k' = k then some v' else lookupField rest k

/-- Setting a key in an object field list: replaces the first occurrence in
place, else appends.  This is exactly the JavaScript semantics of writing a
property (insertion order kept, value overwritten). -/
def setField : List (String × Json) → String → Json → List (String × Json)
  | [], k, v => [(k, v)]
  | (k', v') :: rest, k, v =>
    if k' = k then (k, v) :: rest else (k', v') :: setField rest k v

/-- Property read v.k as in JavaScript for the (non-numeric) keys the code
uses: objects look the key up, all other receivers give undefined (none).
Reads on null throw in JavaScript; callers model that case explicitly. -/
def Json.getField : Json → String → Option Json
  | .obj fs, k => lookupField fs k
  | _, _ => none

/-- Own enumerable properties used by an object spread: objects contribute
their fields, strings and arrays their indexed elements, primitives nothing. -/
def spreadBase : Json → List (String × Json)
  | .obj fs => fs
  | .str s => (s.toList.enum).map (fun p => (toString p.1, Json.str (String.mk [p.2])))
  | .arr xs => (xs.enum).map (fun p => (toString p.1, p.2))
  | _ => []

/- ### A model of JSON.parse -/

/-- JSON whitespace. -/
def skipWs : List Char → List Char
  | [] => []
  | c :: rest =>
    if c = ' ' ∨ c = '\t' ∨ c = '\n' ∨ c = '\r' then skipWs rest else c :: rest

/-- One escape character after a backslash inside a JSON string. -/
def escChar (c : Char) : Option Char :=
  if c = '"' then some '"'
  else if c = '\\' then some '\\'
  else if c = '/' then some '/'
  else if c = 'b' then some (Char.ofNat 8)
  else if c = 'f' then some (Char.ofNat 12)
  else if c = 'n' then some '\n'
  else if c = 'r' then some '\r'
  else if c = 't' then some '\t'
  else none

/-- Hexadecimal digit value. -/
def hexVal (c : Char) : Option Nat :=
  if '0' ≤ c ∧ c ≤ '9' then some (c.toNat - '0'.toNat)
  else if 'a' ≤ c ∧ c ≤ 'f' then some (c.toNat - 'a'.toNat + 10)
  else if 'A' ≤ c ∧ c ≤ 'F' then some (c.toNat - 'A'.toNat + 10)
  else none

/-- Body of a JSON string after the opening quote: returns the decoded
characters and the remaining input after the closing quote. -/
def parseStringBody : List Char → Except String (List Char × List Char)
  | [] => .error "unterminated string"
  | c :: rest =>
    if c = '"' then .ok ([], rest)
    else if c = '\\' then
      match rest with
      | [] => .error "bad escape"
      | e :: rest2 =>
        if e = 'u' then
          match rest2 with
          | h1 :: h2 :: h3 :: h4 :: rest3 =>
            match hexVal h1, hexVal h2, hexVal h3, hexVal h4 with
            | some a, some b, some c2, some d =>
              match parseStringBody rest3 with
              | .ok (s, r) => .ok (Char.ofNat (((a * 16 + b) * 16 + c2) * 16 + d) :: s, r)
              | .error msg => .error msg
            | _, _, _, _ => .error "bad unicode escape"
          | _ => .error "bad unicode escape"
        else
          match escChar e with
          | some ch =>
            match parseStringBody rest2 with
            | .ok (s, r) => .ok (ch :: s, r)
            | .error msg => .error msg
          | none => .error "bad escape"
    else
      match parseStringBody rest with
      | .ok (s, r) => .ok (c :: s, r)
      | .error msg => .error msg

/-- Exponent part of a JSON number (input starts after the e or E). -/
def parseExponent (cs : List Char) : Except String (List Char × List Char) :=
  match cs with
  | c :: rest =>
    if c = '+' ∨ c = '-' then
      let p := rest.span Char.isDigit
      if p.1.isEmpty then .error "bad number" else .ok (c :: p.1, p.2)
    else
      let p := cs.span Char.isDigit
      if p.1.isEmpty then .error "bad number" else .ok (p.1, p.2)
  | [] => .error "bad number"

/-- JSON number literal; the lexeme is returned unevaluated. -/
def parseNumber (cs : List Char) : Except String (String × List Char) :=
  let signed := match cs with
    | '-' :: rest => (['-'], rest)
    | _ => (([] : List Char), cs)
  let intSpan := signed.2.span Char.isDigit
  if intSpan.1.isEmpty then .error "bad number"
  else if intSpan.1.length > 1 ∧ intSpan.1.headD '0' = '0' then .error "bad number"
  else
    let afterInt := intSpan.2
    let fracRes : Except String (List Char × List Char) :=
      match afterInt with
      | '.' :: rest =>
        let p := rest.span Char.isDigit
        if p.1.isEmpty then .error "bad number" else .ok ('.' :: p.1, p.2)
      | _ => .ok ([], afterInt)
    match fracRes with
    | .error msg => .error msg
    | .ok (frac, afterFrac) =>
      match afterFrac with
      | c :: rest =>
        if c = 'e' ∨ c = 'E' then
          match parseExponent rest with
          | .error msg => .error msg
          | .ok (ex, r) => .ok (String.mk (signed.1 ++ intSpan.1 ++ frac ++ c :: ex), r)
        else .ok (String.mk (signed.1 ++ intSpan.1 ++ frac), afterFrac)
      | [] => .ok (String.mk (signed.1 ++ intSpan.1 ++ frac), [])

/-- Fixed literal such as rue of true (first character already consumed). -/
def expectLit (lit : String) (cs : List Char) (v : Json) : Except String (Json × List Char) :=
  if lit.toList.isPrefixOf cs then .ok (v, cs.drop lit.length) else .error "invalid literal"

mutual

/-- Recursive-descent JSON value parser, fuel-bounded.  The fuel given by
jsonParse is always sufficient, so the fuel-exhaustion branch is dead on
inputs of the stated length. -/
def parseValue : Nat → List Char → Except String (Json × List Char)
  | 0, _ => .error "out of fuel"
  | fuel + 1, cs =>
    match skipWs cs with
    | [] => .error "unexpected end of input"
    | c :: rest =>
      if c = '"' then
        match parseStringBody rest with
        | .ok (s, r) => .ok (Json.str (String.mk s), r)
        | .error msg => .error msg
      else if c = '{' then
        match skipWs rest with
        | '}' :: r2 => .ok (Json.obj [], r2)
        | _ => parseObjectItems fuel rest []
      else if c = '[' then
        match skipWs rest with
        | ']' :: r2 => .ok (Json.arr [], r2)
        | _ => parseArrayItems fuel rest []
      else if c = 't' then expectLit "rue" rest (Json.bool true)
      else if c = 'f' then expectLit "alse" rest (Json.bool false)
      else if c = 'n' then expectLit "ull" rest Json.null
      else
        match parseNumber (c :: rest) with
        | .ok (l, r) => .ok (Json.num l, r)
        | .error msg => .error msg

/-- Comma-separated array elements up to the closing bracket. -/
def parseArrayItems : Nat → List Char → List Json → Except String (Json × List Char)
  | 0, _, _ => .error "out of fuel"
  | fuel + 1, cs, acc =>
    match parseValue fuel cs with
    | .error msg => .error msg
    | .ok (v, r) =>
      match skipWs r with
      | ',' :: r2 => parseArrayItems fuel r2 (acc ++ [v])
      | ']' :: r2 => .ok (Json.arr (acc ++ [v]), r2)
      | _ => .error "expected comma or close bracket"

/-- Comma-separated object members up to the closing brace.  A duplicate key
overwrites the earlier value in place, as JSON.parse does. -/
def parseObjectItems : Nat → List Char → List (String × Json) → Except String (Json × List Char)
  | 0, _, _ => .error "out of fuel"
  | fuel + 1, cs, acc =>
    match skipWs cs with
    | '"' :: r =>
      match parseStringBody r with
      | .error msg => .error msg
      | .ok (k, r2) =>
        match skipWs r2 with
        | ':' :: r3 =>
          match parseValue fuel r3 with
          | .error msg => .error msg
          | .ok (v, r4) =>
            match skipWs r4 with
            | ',' :: r5 => parseObjectItems fuel r5 (setField acc (String.mk k) v)
            | '}' :: r5 => .ok (Json.obj (setField acc (String.mk k) v), r5)
            | _ => .error "expected comma or close brace"
        | _ => .error "expected colon"
    | _ => .error "expected string key"

end

/-- Model of JSON.parse: parse one value, then require only whitespace to
remain. -/
def jsonParse (s : String) : Except String Json :=
  match parseValue (3 * s.length + 16) s.toList with
  | .error msg => .error msg
  | .ok (v, rest) =>
    if (skipWs rest).isEmpty then .ok v else .error "unexpected trailing characters"

/-- Success test for a parse or extraction result. -/
def isOkB : Except String Json → Bool
  | .ok _ => true
  | .error _ => false

example : jsonParse "null" = .ok Json.null := rfl
example : jsonParse " \x7b\"a\": [1, true, \"x\"]\x7d " =
    .ok (Json.obj [("a", Json.arr [Json.num "1", Json.bool true, Json.str "x"])]) := rfl
example : isOkB (jsonParse "oops") = false := rfl
example : isOkB (jsonParse "\x7b\"a\":1\x7d \x7d") = false := rfl

/- ### Response normalizer: extractJson (services/aiAdapter.ts lines 18 to 29)

The source matches the greedy regular expression that alternates a brace
form and a bracket form, each with an arbitrary interior.  A match therefore
starts at the first position holding an opening brace with some closing brace
after it (or, failing that alternative, an opening bracket with some closing
bracket after it) and extends to the last such closer in the text. -/

/-- Prefix of the input up to and including the last occurrence of the
target character (callers guarantee the target occurs). -/
def takeToLastIncl (t : Char) : List Char → List Char
  | [] => []
  | c :: rest =>
    if t ∈ rest then c :: takeToLastIncl t rest
    else if c = t then [c] else []

/-- The span the source regular expression matches, if any. -/
def findMatch : List Char → Option (List Char)
  | [] => none
  | c :: rest =>
    if c = '{' ∧ '}' ∈ rest then some (c :: takeToLastIncl '}' rest)
    else if c = '[' ∧ ']' ∈ rest then some (c :: takeToLastIncl ']' rest)
    else findMatch rest

/-- JSON.parse wrapped by the catch-all of extractJson: any parse failure
becomes the fixed invalid-format error of the source (the offending text is
only logged there, not attached to the thrown error). -/
def parseOrFail (t : String) : Except String Json :=
  match jsonParse t with
  | .ok j => .ok j
  | .error _ => .error "Invalid AI response format"

/-- extractJson from services/aiAdapter.ts: parse the regex span when one
exists, else the whole text; every failure is rethrown as the fixed
invalid-format error. -/
def extractJson (text : String) : Except String Json :=
  match findMatch text.toList with
  | some span => parseOrFail (String.mk span)
  | none => parseOrFail text

/-- Balanced-span extraction as the specification describes it: find the
first opening brace or bracket and cut at the matching closer of the same
kind, counting nesting depth; parse failures carry the offending text.
Stated from the specification words only, for comparison with extractJson. -/
def balancedFrom (o c : Char) : List Char → Nat → Option (List Char)
  | [], _ => none
  | x :: rest, depth =>
    if x = c then
      if depth = 1 then some [x]
      else (balancedFrom o c rest (depth - 1)).map (fun l => x :: l)
    else if x = o then (balancedFrom o c rest (depth + 1)).map (fun l => x :: l)
    else (balancedFrom o c rest depth).map (fun l => x :: l)

/-- First balanced brace or bracket span of the text, per the specification. -/
def findBalanced : List Char → Option (List Char)
  | [] => none
  | x :: rest =>
    if x = '{' then (balancedFrom '{' '}' rest 1).map (fun l => x :: l)
    else if x = '[' then (balancedFrom '[' ']' rest 1).map (fun l => x :: l)
    else findBalanced rest

/-- The extraction algorithm exactly as the specification words it
(balanced span, ParseError carrying the offending text). -/
def extractJsonSpec (text : String) : Except String Json :=
  match findBalanced text.toList with
  | some span =>
    match jsonParse (String.mk span) with
    | .ok j => .ok j
    | .error _ => .error text
  | none =>
    match jsonParse text with
    | .ok j => .ok j
    | .error _ => .error text

/- ### Response normalizer: adaptToBeliefState (services/aiAdapter.ts 34 to 60) -/

/-- The string-to-Candidate coercion applied to alternatives and attribute
values: a string s becomes the object with name s, anything else passes
through unchanged. -/
def coerceCandidate : Json → Json
  | .str s => Json.obj [("name", Json.str s)]
  | v => v

/-- Array-or-default with element coercion: an array field maps its elements
through the candidate coercion, any other value (including an absent field)
defaults to the empty array. -/
def coerceArr : Option Json → Json
  | some (.arr xs) => Json.arr (xs.map coerceCandidate)
  | _ => Json.arr []

/-- Array-or-empty for the raw attribute, entity and relationship lists. -/
def arrOrNil : Option Json → List Json
  | some (.arr xs) => xs
  | _ => []

/-- The nullish-coalescing default for presence_in_prompt: null or absent
becomes false, anything else is kept. -/
def presDefault : Option Json → Json
  | none => Json.bool false
  | some .null => Json.bool false
  | some v => v

/-- Sequencing of a list of fallible element transforms, in order, stopping
at the first failure, as a JavaScript map over callbacks that may throw. -/
def exMapM (f : Json → Except String Json) : List Json → Except String (List Json)
  | [] => .ok []
  | x :: rest =>
    match f x with
    | .error e => .error e
    | .ok y =>
      match exMapM f rest with
      | .error e => .error e
      | .ok tail => .ok (y :: tail)

/-- Null test: property access on null throws in JavaScript, and the
normalizer models those throws explicitly. -/
def isNull : Json → Bool
  | .null => true
  | _ => false

/-- Normalization of one raw attribute: spread the raw value, default
presence_in_prompt, coerce the value list.  Property access on null throws
in JavaScript, hence the error branch. -/
def adaptAttribute (a : Json) : Except String Json :=
  if isNull a then .error "TypeError: cannot read properties of null"
  else
    .ok (Json.obj (setField
      (setField (spreadBase a) "presence_in_prompt" (presDefault (Json.getField a "presence_in_prompt")))
      "value" (coerceArr (Json.getField a "value"))))

/-- Normalization of one raw entity: spread the raw value, coerce
alternatives, normalize the attribute list (defaulting a non-array to
empty). -/
def adaptEntity (e : Json) : Except String Json :=
  if isNull e then .error "TypeError: cannot read properties of null"
  else
    match exMapM adaptAttribute (arrOrNil (Json.getField e "attributes")) with
    | .error msg => .error msg
    | .ok attrs =>
      .ok (Json.obj (setField
        (setField (spreadBase e) "alternatives" (coerceArr (Json.getField e "alternatives")))
        "attributes" (Json.arr attrs)))

/-- Normalization of one raw relationship: spread and coerce alternatives. -/
def adaptRelationship (r : Json) : Except String Json :=
  if isNull r then .error "TypeError: cannot read properties of null"
  else
    .ok (Json.obj (setField (spreadBase r) "alternatives" (coerceArr (Json.getField r "alternatives"))))

/-- adaptToBeliefState from services/aiAdapter.ts: defaults non-array
top-level entity and relationship lists to empty, normalizes every element,
and attaches the prompt. -/
def adaptToBeliefState (raw : Json) (prompt : String) : Except String Json :=
  if isNull raw then .error "TypeError: cannot read properties of null"
  else
    match exMapM adaptEntity (arrOrNil (Json.getField raw "entities")) with
    | .error msg => .error msg
    | .ok es =>
      match exMapM adaptRelationship (arrOrNil (Json.getField raw "relationships")) with
      | .error msg => .error msg
      | .ok rs =>
        .ok (Json.obj [("entities", Json.arr es), ("relationships", Json.arr rs),
                       ("prompt", Json.str prompt)])

example : extractJson "no json here" = .error "Invalid AI response format" := rfl
example : extractJson "prefix \x7b\"a\": 1\x7d" = .ok (Json.obj [("a", Json.num "1")]) := rfl
example :
    adaptToBeliefState (Json.obj [("entities", Json.arr [Json.obj [("name", Json.str "cat"),
      ("alternatives", Json.arr [Json.str "a", Json.str "b"])]]), ("relationships", Json.arr [])]) "p"
    = .ok (Json.obj [("entities", Json.arr [Json.obj [("name", Json.str "cat"),
        ("alternatives", Json.arr [Json.obj [("name", Json.str "a")], Json.obj [("name", Json.str "b")]]),
        ("attributes", Json.arr [])]]),
      ("relationships", Json.arr []), ("prompt", Json.str "p")]) := rfl

/- ### Retry executor (services/geminiService.ts lines 107 to 138) -/

/-- A thrown JavaScript error, reduced to its message string (the source
reads error.message when it is a string). -/
structure JsError where
  message : String

/-- Substring test, as the JavaScript String.prototype.includes. -/
def listContainsSub : List Char → List Char → Bool
  | [], pat => pat.isEmpty
  | c :: rest, pat => pat.isPrefixOf (c :: rest) || listContainsSub rest pat

/-- String containment. -/
def strContains (s pat : String) : Bool := listContainsSub s.toList pat.toList

/-- isRetryableError from services/geminiService.ts: the not-found message is
never retryable; otherwise the listed transient status markers are. -/
def isRetryableError (e : JsError) : Bool :=
  if strContains e.message "Requested entity was not found" then false
  else
    strContains e.message "\"code\":503" || strContains e.message "\"code\":500" ||
    strContains e.message "Rpc failed" || strContains e.message "502" ||
    strContains e.message "504" || strContains e.message "\"code\":429"

/-- Loop body of withRetry.  The operation is modelled as a function of the
zero-based attempt index; the second component of the result counts how many
times the operation was invoked.  The stored last error is only read when the
attempt budget is exhausted (the undefined placeholder mirrors throwing the
still-unset lastError when retries is zero). -/
def withRetryGo {α : Type} (fn : Nat → Except JsError α) :
    Nat → Nat → Option JsError → Except JsError α × Nat
  | 0, calls, last =>
    (Except.error (match last with | some err => err | none => { message := "undefined" }), calls)
  | n + 1, calls, _ =>
    match fn calls with
    | .ok v => (Except.ok v, calls + 1)
    | .error err =>
      if isRetryableError err then withRetryGo fn n (calls + 1) (some err)
      else (Except.error err, calls + 1)

/-- withRetry from services/geminiService.ts, instrumented with the number of
invocations of the wrapped operation. -/
def withRetry {α : Type} (fn : Nat → Except JsError α) (retries : Nat) :
    Except JsError α × Nat :=
  withRetryGo fn retries 0 none

/- ### Tool table and tool-call loop (services/geminiService.ts 39 to 53 and
142 to 160) -/

mutual

/-- JavaScript template-literal stringification, restricted to the shapes the
tool table interpolates. -/
def jsStr : Json → String
  | .null => "null"
  | .bool b => if b then "true" else "false"
  | .num l => l
  | .str s => s
  | .arr xs => jsStrArr xs
  | .obj _ => "[object Object]"

def jsStrArr : List Json → String
  | [] => ""
  | x :: rest =>
    (match x with | .null => "" | v => jsStr v) ++
    (match rest with | [] => "" | _ => "," ++ jsStrArr rest)

end

/-- Interpolation of a possibly-absent value into a template literal. -/
def jsTemplate : Option Json → String
  | none => "undefined"
  | some v => jsStr v

/-- executeTool from services/geminiService.ts: the fixed internal tool
table.  Destructuring null or undefined arguments throws, as does calling
toLowerCase on a non-string query. -/
def executeTool (name : String) (args : Option Json) : Except String Json :=
  if name = "get_creative_context" then
    match args with
    | none => .error "TypeError: cannot destructure"
    | some .null => .error "TypeError: cannot destructure"
    | some a =>
      match Json.getField a "mode" with
      | some (.str "image") =>
        .ok (Json.obj [("trends", Json.arr [Json.str "Cinematic lighting", Json.str "Hyper-detail"]),
          ("advice", Json.str ("For " ++ jsTemplate (Json.getField a "topic") ++ ", focus on textures."))])
      | some (.str "video") =>
        .ok (Json.obj [("pacing", Json.str "Slow pan"),
          ("dynamic_elements", Json.arr [Json.str "Particle effects"])])
      | _ => .ok (Json.obj [("tone", Json.str "Evocative"), ("pacing", Json.str "Fast-start")])
  else if name = "search_technical_specs" then
    match args with
    | none => .error "TypeError: cannot destructure"
    | some .null => .error "TypeError: cannot destructure"
    | some a =>
      match Json.getField a "query" with
      | some (.str q) =>
        if strContains q.toLower "chiaroscuro" then .ok (Json.str "High contrast lighting, deep shadows.")
        else .ok (Json.str ("Technical parameters for " ++ q ++ " focus on balance."))
      | _ => .error "TypeError: query.toLowerCase is not a function"
  else .ok (Json.obj [("status", Json.str "unknown_tool")])

/-- One function call signalled by the model. -/
structure FnCall where
  id : Option String
  name : String
  args : Option Json

/-- A generateContent response: the signalled function calls, the content
turn of the first candidate, and the text payload (absent when the model
returned none). -/
structure GenResponse where
  functionCalls : List FnCall
  content : Json
  text : Option String

/-- The functionResponse part pushed for one executed tool call. -/
def frPart (fc : FnCall) (result : Json) : Json :=
  Json.obj [("functionResponse", Json.obj [
    ("id", match fc.id with | some i => Json.str i | none => Json.null),
    ("name", Json.str fc.name),
    ("response", Json.obj [("result", result)])])]

/-- Execution of every signalled call through the tool table, in order. -/
def execAll : List FnCall → Except String (List Json)
  | [] => .ok []
  | fc :: rest =>
    match executeTool fc.name fc.args with
    | .error err => .error err
    | .ok result =>
      match execAll rest with
      | .error err => .error err
      | .ok tail => .ok (frPart fc result :: tail)

/-- The tool turn appended after executing the calls of one round. -/
def toolTurn (parts : List Json) : Json :=
  Json.obj [("role", Json.str "tool"), ("parts", Json.arr parts)]

/-- The while loop of handleContentWithTools with its loop counter: while the
response signals function calls and fewer than the fixed maximum of rounds
have run, execute the tools, append the model turn and the tool turn, and
resubmit.  The second result component counts executed rounds. -/
def toolLoop (gen : List Json → Except String GenResponse) :
    Nat → List Json → GenResponse → Nat → Except String (GenResponse × Nat)
  | 0, _, r, rounds => .ok (r, rounds)
  | n + 1, chat, r, rounds =>
    if r.functionCalls.isEmpty then .ok (r, rounds)
    else
      match execAll r.functionCalls with
      | .error err => .error err
      | .ok parts =>
        match gen (chat ++ [r.content, toolTurn parts]) with
        | .error err => .error err
        | .ok r2 => toolLoop gen n (chat ++ [r.content, toolTurn parts]) r2 (rounds + 1)

/-- The initial chat contents built from a plain string prompt. -/
def initialChat (contents : String) : List Json :=
  [Json.obj [("role", Json.str "user"),
             ("parts", Json.arr [Json.obj [("text", Json.str contents)]])]]

/-- handleContentWithTools from services/geminiService.ts: one initial
generate call (its outcome is the first argument), then the bounded tool-call
loop with maxLoops equal to five. -/
def handleContentWithTools (first : Except String GenResponse)
    (gen : List Json → Except String GenResponse) (contents : String) :
    Except String (GenResponse × Nat) :=
  match first with
  | .error err => .error err
  | .ok r => toolLoop gen 5 (initialChat contents) r 0

/- ### Gemini belief-graph pipeline (services/geminiService.ts 162 to 208) -/

/-- JavaScript whitespace, as far as the trim model needs it. -/
def isWsChar (c : Char) : Bool :=
  c = ' ' ∨ c = '\t' ∨ c = '\n' ∨ c = '\r' ∨ c = Char.ofNat 12 ∨ c = Char.ofNat 11

/-- Model of String.prototype.trim: drop whitespace from both ends. -/
def jsTrim (s : String) : String :=
  String.mk ((((s.toList.dropWhile isWsChar).reverse).dropWhile isWsChar).reverse)

/-- The canonical empty belief graph returned by the catch-all fallback. -/
def emptyBelief (prompt : String) : Json :=
  Json.obj [("entities", Json.arr []), ("relationships", Json.arr []),
            ("prompt", Json.str prompt)]

/-- Gemini mapping of one raw attribute: spread and wrap every value element
as a Candidate (unconditionally, unlike the adapter coercion); a non-array
value field throws. -/
def geminiMapAttr (a : Json) : Except String Json :=
  match a with
  | .null => .error "TypeError: cannot read properties of null"
  | _ =>
    match Json.getField a "value" with
    | some (.arr xs) =>
      .ok (Json.obj (setField (spreadBase a) "value"
            (Json.arr (xs.map (fun s => Json.obj [("name", s)])))))
    | _ => .error "TypeError: a.value.map is not a function"

/-- Gemini mapping of one raw entity: optional-chained alternatives default
to empty on null or absent, a required attributes array is mapped, anything
else throws. -/
def geminiMapEntity (e : Json) : Except String Json :=
  match e with
  | .null => .error "TypeError: cannot read properties of null"
  | _ =>
    match
      (match Json.getField e "alternatives" with
       | none => Except.ok (Json.arr [])
       | some .null => Except.ok (Json.arr [])
       | some (.arr xs) => Except.ok (Json.arr (xs.map (fun s => Json.obj [("name", s)])))
       | some _ => Except.error "TypeError: e.alternatives.map is not a function") with
    | .error err => .error err
    | .ok alts =>
      match Json.getField e "attributes" with
      | some (.arr xs) =>
        match exMapM geminiMapAttr xs with
        | .error err => .error err
        | .ok attrs =>
          .ok (Json.obj (setField (setField (spreadBase e) "alternatives" alts)
                "attributes" (Json.arr attrs)))
      | _ => .error "TypeError: e.attributes.map is not a function"

/-- Gemini mapping of one raw relationship. -/
def geminiMapRel (r : Json) : Except String Json :=
  match r with
  | .null => .error "TypeError: cannot read properties of null"
  | _ =>
    match Json.getField r "alternatives" with
    | none => .ok (Json.obj (setField (spreadBase r) "alternatives" (Json.arr [])))
    | some .null => .ok (Json.obj (setField (spreadBase r) "alternatives" (Json.arr [])))
    | some (.arr xs) =>
      .ok (Json.obj (setField (spreadBase r) "alternatives"
            (Json.arr (xs.map (fun s => Json.obj [("name", s)])))))
    | some _ => .error "TypeError: r.alternatives.map is not a function"

/-- The body of the try block of parsePromptToBeliefGraph after JSON.parse
succeeded. -/
def geminiAdapt (raw : Json) (prompt : String) : Except String Json :=
  match Json.getField raw "entities" with
  | some (.arr xs) =>
    match exMapM geminiMapEntity xs with
    | .error err => .error err
    | .ok es =>
      match Json.getField raw "relationships" with
      | some (.arr ys) =>
        match exMapM geminiMapRel ys with
        | .error err => .error err
        | .ok rs =>
          .ok (Json.obj [("entities", Json.arr es), ("relationships", Json.arr rs),
                         ("prompt", Json.str prompt)])
      | _ => .error "TypeError: raw.relationships.map is not a function"
  | _ => .error "TypeError: raw.entities.map is not a function"

/-- parsePromptToBeliefGraph from services/geminiService.ts, as a function of
the outcome of the retried model call (the text payload of a successful
response may be absent, which the source replaces with the empty string).
Every failure anywhere in the try block falls back to the empty belief
graph. -/
def parsePromptToBeliefGraph (call : Except JsError (Option String)) (prompt : String) : Json :=
  match call with
  | .error _ => emptyBelief prompt
  | .ok t =>
    match jsonParse (jsTrim (t.getD "")) with
    | .error _ => emptyBelief prompt
    | .ok raw =>
      match geminiAdapt raw prompt with
      | .error _ => emptyBelief prompt
      | .ok g => g

/-- refinePromptWithAllUpdates from services/geminiService.ts, as a function
of the outcome of the retried model call: any thrown error and any falsy
response text give back the original prompt. -/
def refinePromptWithAllUpdates (call : Except JsError (Option String))
    (originalPrompt : String) : String :=
  match call with
  | .error _ => originalPrompt
  | .ok t =>
    match t with
    | some txt => if txt.isEmpty then originalPrompt else txt
    | none => originalPrompt

/- ### Provider dispatch (services/aiAdapter.ts 88 to 149) -/

/-- The configurable providers of the dispatcher. -/
inductive Provider where
  | gemini
  | mistral
  | openrouter
  | groq
  | olm
deriving DecidableEq

/-- generateBeliefGraph from services/aiAdapter.ts as a function of the raw
provider response text: gemini delegates to its own pipeline (which never
throws), every other provider extracts JSON from the response text and
normalizes it, with no handler around either step. -/
def generateBeliefGraph (provider : Provider) (responseText : String) (prompt : String) :
    Except String Json :=
  match provider with
  | .gemini => .ok (parsePromptToBeliefGraph (.ok (some responseText)) prompt)
  | _ =>
    match extractJson responseText with
    | .error err => .error err
    | .ok j => adaptToBeliefState j prompt

example :
    generateBeliefGraph Provider.gemini "not json" "p" = .ok (emptyBelief "p") := rfl
example :
    generateBeliefGraph Provider.groq "not json" "p"
      = .error "Invalid AI response format" := rfl
example : isRetryableError { message := "oops \"code\":503 upstream" } = true := rfl
example : isRetryableError { message := "Requested entity was not found." } = false := rfl

/- ### App.tsx: request coordination and reconciliation state

The mutable React state of App.tsx is modelled as one record; modeRef mirrors
the mode state (its synchronizing effect), and the two request-id refs are
the token counters.  Each handler is a pure transition; the asynchronous
completions take the captured token and mode and the state at completion
time. -/

/-- The creative mode. -/
inductive Mode where
  | image
  | story
  | video
deriving DecidableEq

/-- Per-mode gallery error slots. -/
structure GalleryErrors where
  image : Option String
  story : Option String
  video : Option String
deriving DecidableEq

/-- Read the slot of one mode. -/
def GalleryErrors.get (g : GalleryErrors) : Mode → Option String
  | .image => g.image
  | .story => g.story
  | .video => g.video

/-- Replace the slot of one mode. -/
def GalleryErrors.set (g : GalleryErrors) : Mode → Option String → GalleryErrors
  | .image, v => { g with image := v }
  | .story, v => { g with story := v }
  | .video, v => { g with video := v }

/-- The App.tsx state relevant to coordination and reconciliation. -/
structure AppState where
  prompt : String
  mode : Mode
  analysisToken : Nat
  generationToken : Nat
  beliefGraph : Option Json
  clarifications : Json
  answeredQuestions : List String
  skippedQuestions : List String
  pendingAttributeUpdates : List (String × String)
  pendingRelationshipUpdates : List (String × String)
  pendingClarificationAnswers : List (String × String)
  isGraphLoading : Bool
  isAttributesLoading : Bool
  isClarificationsLoading : Bool
  isGenerating : Bool
  isUpdatingPrompt : Bool
  isOutdated : Bool
  showModeChangePopup : Bool
  requiresApiKey : Bool
  statusNotification : Option String
  galleryErrors : GalleryErrors
  lastAnalyzedPrompt : Option String
  lastAnalyzedMode : Option Mode

/-- The initial useState values of App.tsx. -/
def initialState : AppState where
  prompt := "a cat hosting a party for its animal friends"
  mode := .image
  analysisToken := 0
  generationToken := 0
  beliefGraph := none
  clarifications := Json.arr []
  answeredQuestions := []
  skippedQuestions := []
  pendingAttributeUpdates := []
  pendingRelationshipUpdates := []
  pendingClarificationAnswers := []
  isGraphLoading := false
  isAttributesLoading := false
  isClarificationsLoading := false
  isGenerating := false
  isUpdatingPrompt := false
  isOutdated := false
  showModeChangePopup := false
  requiresApiKey := false
  statusNotification := none
  galleryErrors := { image := none, story := none, video := none }
  lastAnalyzedPrompt := none
  lastAnalyzedMode := none

/-- handleModeChange from App.tsx: a no-op on the same mode, otherwise both
token counters are incremented, the mode switches, every loading flag is
cleared and the popup shown. -/
def handleModeChange (s : AppState) (newMode : Mode) : AppState :=
  if newMode = s.mode then s
  else
    { s with
      analysisToken := s.analysisToken + 1
      generationToken := s.generationToken + 1
      mode := newMode
      isGraphLoading := false
      isAttributesLoading := false
      isClarificationsLoading := false
      isGenerating := false
      isUpdatingPrompt := false
      showModeChangePopup := true
      requiresApiKey := false }

/-- The token and mode pair captured by an analysis operation at issue
time. -/
structure AnalysisCapture where
  token : Nat
  mode : Mode
deriving DecidableEq

/-- The synchronous prefix of refreshAnalysis from App.tsx: increment the
analysis counter and capture it together with the requested mode, raise the
loading flags and record the analyzed prompt and mode. -/
def refreshAnalysisStart (s : AppState) (currentPrompt : String)
    (_currentAnswered : List String) (currentMode : Mode) : AppState × AnalysisCapture :=
  ({ s with
      analysisToken := s.analysisToken + 1
      isGraphLoading := true
      isAttributesLoading := true
      isClarificationsLoading := true
      lastAnalyzedPrompt := some currentPrompt
      lastAnalyzedMode := some currentMode },
   { token := s.analysisToken + 1, mode := currentMode })

/-- JavaScript truthiness of a JSON value (a JSON number is falsy exactly
when its mantissa has no nonzero digit). -/
def jsTruthy : Json → Bool
  | .null => false
  | .bool b => b
  | .str s => !s.isEmpty
  | .num l => !((l.toList.takeWhile (fun c => c ≠ 'e' ∧ c ≠ 'E')).all
      (fun c => ¬('1' ≤ c ∧ c ≤ '9')))
  | .arr _ => true
  | .obj _ => true

/-- The then-callback of the belief-graph promise in refreshAnalysis: commit
the result only when the current mode still equals the captured mode and the
counter still equals the captured token (and the result is truthy, which a
returned graph object always is). -/
def commitGraph (s : AppState) (cap : AnalysisCapture) (g : Json) : AppState :=
  if s.mode = cap.mode ∧ s.analysisToken = cap.token then
    if jsTruthy g then { s with beliefGraph := some g } else s
  else s

/-- The then-callback of the clarification promise in refreshAnalysis, with
the same staleness check. -/
def commitClarifications (s : AppState) (cap : AnalysisCapture) (cl : Json) : AppState :=
  if s.mode = cap.mode ∧ s.analysisToken = cap.token then
    { s with clarifications := cl }
  else s

/- ### Reconciliation: handleApplyAllUpdates (App.tsx 274 to 312) -/

/-- One pending edit as sent to the refine request.  Splitting a key without
a colon leaves the second component undefined, hence the options. -/
inductive GraphUpdate where
  | attrEdit (entity : String) (attr : Option String) (value : String)
  | relEdit (source : String) (target : Option String) (oldLabel : Option Json) (newLabel : String)

/-- JavaScript strict equality of a property read against a string. -/
def jsEqStr : Option Json → String → Bool
  | some (.str a), b => a == b
  | _, _ => false

/-- JavaScript strict equality of a property read against a possibly
undefined string. -/
def jsEqOptStr : Option Json → Option String → Bool
  | some (.str a), some b => a == b
  | none, none => true
  | _, _ => false

/-- The relationship lookup of handleApplyAllUpdates over the current belief
graph. -/
def findRel (bg : Option Json) (source : String) (target : Option String) : Option Json :=
  match bg with
  | none => none
  | some g =>
    match Json.getField g "relationships" with
    | some (.arr rs) =>
      rs.find? (fun r => jsEqStr (Json.getField r "source") source &&
                         jsEqOptStr (Json.getField r "target") target)
    | _ => none

/-- The merged refine request built by handleApplyAllUpdates, together with
the captured request mode and the already-extended answered list. -/
structure RefineRequest where
  requestMode : Mode
  qaPairs : List (String × String)
  graphUpdates : List GraphUpdate
  newAnswered : List String

/-- The synchronous prefix of handleApplyAllUpdates (after its reentrancy
guard passed): set the updating flag, build the question-answer pairs and the
merged graph updates, and append the newly answered questions to the
answered list before the refine call is issued. -/
def applyStartCore (s : AppState) : AppState × RefineRequest :=
  let qaPairs := s.pendingClarificationAnswers
  let attrUpdates := s.pendingAttributeUpdates.map (fun kv =>
    let parts := kv.1.splitOn ":"
    GraphUpdate.attrEdit (parts.headD "") (parts.get? 1) kv.2)
  let relUpdates := s.pendingRelationshipUpdates.filterMap (fun kv =>
    let parts := kv.1.splitOn ":"
    match findRel s.beliefGraph (parts.headD "") (parts.get? 1) with
    | some rel =>
      some (GraphUpdate.relEdit (parts.headD "") (parts.get? 1)
        (Json.getField rel "label") kv.2)
    | none => none)
  let newAnswered := s.answeredQuestions ++ qaPairs.map Prod.fst
  ({ s with isUpdatingPrompt := true, answeredQuestions := newAnswered },
   { requestMode := s.mode
     qaPairs := qaPairs
     graphUpdates := attrUpdates ++ relUpdates
     newAnswered := newAnswered })

/-- handleApplyAllUpdates up to the await: the reentrancy guard returns
nothing when a refinement is already in flight. -/
def applyUpdatesStart (s : AppState) : Option (AppState × RefineRequest) :=
  if s.isUpdatingPrompt then none else some (applyStartCore s)

/-- Resumption of handleApplyAllUpdates when the refine call settles, given
the state at that time, the captured request, the current mode at resumption
(the modeRef read of the isCurrent check) and the call outcome.  On success
with the mode unchanged the refined text becomes the prompt, the state is
marked outdated, pending edits and skipped questions are cleared and a new
analysis cycle starts; on failure with the mode unchanged only the gallery
error of the request mode is set.  The finally clause then clears the
updating flag and the status notification. -/
def applyUpdatesFinish (s : AppState) (req : RefineRequest) (modeAtResume : Mode)
    (outcome : Except JsError String) : AppState :=
  match outcome with
  | .ok newPrompt =>
    if modeAtResume = req.requestMode then
      let s2 := (refreshAnalysisStart
        { s with
            prompt := newPrompt
            isOutdated := true
            pendingAttributeUpdates := []
            pendingRelationshipUpdates := []
            pendingClarificationAnswers := []
            skippedQuestions := [] }
        newPrompt req.newAnswered req.requestMode).1
      { s2 with isUpdatingPrompt := false, statusNotification := none }
    else s
  | .error _ =>
    if modeAtResume = req.requestMode then
      { s with
          galleryErrors := s.galleryErrors.set req.requestMode (some "Failed to refine prompt.")
          isUpdatingPrompt := false
          statusNotification := none }
    else s

/- ## Helper lemmas -/

/-- Reading the key just written. -/
lemma lookup_setField_self (l : List (String × Json)) (k : String) (v : Json) :
    lookupField (setField l k v) k = some v := by
  induction l with
  | nil => simp [setField, lookupField]
  | cons p rest ih =>
    rcases p with ⟨pk, pv⟩
    by_cases h : pk = k
    · subst h
      simp [setField, lookupField]
    · simp [setField, lookupField, h, ih]

/-- Writing one key does not disturb reads of another. -/
lemma lookup_setField_ne (l : List (String × Json)) (k k' : String) (v : Json)
    (h : k' ≠ k) : lookupField (setField l k v) k' = lookupField l k' := by
  induction l with
  | nil => simp [setField, lookupField, Ne.symm h]
  | cons p rest ih =>
    rcases p with ⟨pk, pv⟩
    by_cases hk : pk = k
    · subst hk
      simp [setField, lookupField, Ne.symm h]
    · simp only [setField, lookupField, hk, if_false, if_neg hk]
      by_cases hk' : pk = k'
      · simp [lookupField, hk']
      · simp [lookupField, hk', ih]

/-- Writing back the value already stored is the identity. -/
lemma setField_of_lookup (l : List (String × Json)) (k : String) (v : Json)
    (h : lookupField l k = some v) : setField l k v = l := by
  induction l with
  | nil => simp [lookupField] at h
  | cons p rest ih =>
    rcases p with ⟨pk, pv⟩
    by_cases hk : pk = k
    · subst hk
      have h' : pv = v := by simpa [lookupField] using h
      subst h'
      simp [setField]
    · have h' : lookupField rest k = some v := by simpa [lookupField, hk] using h
      simp [setField, hk, ih h']

/-- The candidate coercion is idempotent. -/
lemma coerceCandidate_idem (v : Json) :
    coerceCandidate (coerceCandidate v) = coerceCandidate v := by
  cases v <;> rfl

/-- Coercing a coerced list again changes nothing. -/
lemma coerceArr_coerceArr (x : Option Json) :
    coerceArr (some (coerceArr x)) = coerceArr x := by
  match x with
  | none => rfl
  | some (.arr xs) =>
    simp only [coerceArr, Json.arr.injEq, List.map_map]
    exact List.map_congr_left (fun v _ => coerceCandidate_idem v)
  | some .null | some (.bool _) | some (.num _) | some (.str _) | some (.obj _) => rfl

/-- Applying the presence default to its own output changes nothing. -/
lemma presDefault_fix (x : Option Json) :
    presDefault (some (presDefault x)) = presDefault x := by
  match x with
  | none => rfl
  | some .null => rfl
  | some (.bool b) => rfl
  | some (.num l) => rfl
  | some (.str s) => rfl
  | some (.arr xs) => rfl
  | some (.obj fs) => rfl

/-- A successful element-wise map makes every output an image of some
input. -/
lemma exMapM_ok_mem {f : Json → Except String Json} :
    ∀ {l out}, exMapM f l = .ok out → ∀ y ∈ out, ∃ x, f x = .ok y := by
  intro l
  induction l with
  | nil =>
    intro out h y hy
    simp only [exMapM] at h
    cases h
    simp at hy
  | cons x rest ih =>
    intro out h y hy
    simp only [exMapM] at h
    match hx : f x with
    | .error e => rw [hx] at h; cases h
    | .ok z =>
      rw [hx] at h
      match hr : exMapM f rest with
      | .error e => rw [hr] at h; cases h
      | .ok tail =>
        rw [hr] at h
        cases h
        rcases List.mem_cons.mp hy with h1 | h2
        · exact ⟨x, by rw [hx, h1]⟩
        · exact ih hr y h2

/-- A map whose function fixes every element of the list succeeds and
returns the list unchanged. -/
lemma exMapM_fix {f : Json → Except String Json} :
    ∀ {l}, (∀ x ∈ l, f x = .ok x) → exMapM f l = .ok l := by
  intro l
  induction l with
  | nil => intro _; rfl
  | cons x rest ih =>
    intro h
    have hx : f x = .ok x := h x (List.mem_cons_self x rest)
    have hr : exMapM f rest = .ok rest := ih (fun y hy => h y (List.mem_cons_of_mem x hy))
    simp only [exMapM, hx, hr]

/- ## Idempotence of the normalizer -/

/-- Reduction of attribute normalization at an object value. -/
lemma adaptAttribute_on_obj (L : List (String × Json)) :
    adaptAttribute (Json.obj L)
    = .ok (Json.obj (setField
        (setField L "presence_in_prompt" (presDefault (lookupField L "presence_in_prompt")))
        "value" (coerceArr (lookupField L "value")))) := rfl

/-- Reduction of entity normalization at an object value. -/
lemma adaptEntity_on_obj (L : List (String × Json)) :
    adaptEntity (Json.obj L)
    = (match exMapM adaptAttribute (arrOrNil (lookupField L "attributes")) with
       | .error msg => Except.error msg
       | .ok attrs =>
         Except.ok (Json.obj (setField
           (setField L "alternatives" (coerceArr (lookupField L "alternatives")))
           "attributes" (Json.arr attrs)))) := rfl

/-- Reduction of relationship normalization at an object value. -/
lemma adaptRelationship_on_obj (L : List (String × Json)) :
    adaptRelationship (Json.obj L)
    = .ok (Json.obj (setField L "alternatives" (coerceArr (lookupField L "alternatives")))) := rfl

/-- A normalized attribute is a fixed point of attribute normalization. -/
lemma adaptAttribute_fix (a x : Json) (h : adaptAttribute a = .ok x) :
    adaptAttribute x = .ok x := by
  match hn : isNull a with
  | true => simp [adaptAttribute, hn] at h
  | false =>
    simp only [adaptAttribute, hn, Bool.false_eq_true, if_false] at h
    have hx : x = Json.obj (setField
        (setField (spreadBase a) "presence_in_prompt" (presDefault (Json.getField a "presence_in_prompt")))
        "value" (coerceArr (Json.getField a "value"))) := by
      cases h; rfl
    subst hx
    rw [adaptAttribute_on_obj]
    set L := setField
        (setField (spreadBase a) "presence_in_prompt" (presDefault (Json.getField a "presence_in_prompt")))
        "value" (coerceArr (Json.getField a "value")) with hL
    have h1 : lookupField L "presence_in_prompt"
        = some (presDefault (Json.getField a "presence_in_prompt")) := by
      rw [hL, lookup_setField_ne _ _ _ _ (by decide), lookup_setField_self]
    have h2 : lookupField L "value" = some (coerceArr (Json.getField a "value")) := by
      rw [hL, lookup_setField_self]
    rw [h1, h2, presDefault_fix, coerceArr_coerceArr,
        setField_of_lookup _ _ _ h1, setField_of_lookup _ _ _ h2]

/-- A normalized entity is a fixed point of entity normalization. -/
lemma adaptEntity_fix (e x : Json) (h : adaptEntity e = .ok x) :
    adaptEntity x = .ok x := by
  match hn : isNull e with
  | true => simp [adaptEntity, hn] at h
  | false =>
    simp only [adaptEntity, hn, Bool.false_eq_true, if_false] at h
    match hm : exMapM adaptAttribute (arrOrNil (Json.getField e "attributes")) with
    | .error msg => rw [hm] at h; exact Except.noConfusion h
    | .ok attrs =>
      rw [hm] at h
      have hx : x = Json.obj (setField
          (setField (spreadBase e) "alternatives" (coerceArr (Json.getField e "alternatives")))
          "attributes" (Json.arr attrs)) := by
        cases h; rfl
      subst hx
      have hfix : exMapM adaptAttribute attrs = .ok attrs :=
        exMapM_fix (fun y hy => by
          obtain ⟨a0, ha0⟩ := exMapM_ok_mem hm y hy
          exact adaptAttribute_fix a0 y ha0)
      rw [adaptEntity_on_obj]
      set L := setField
          (setField (spreadBase e) "alternatives" (coerceArr (Json.getField e "alternatives")))
          "attributes" (Json.arr attrs) with hL
      have h1 : lookupField L "alternatives"
          = some (coerceArr (Json.getField e "alternatives")) := by
        rw [hL, lookup_setField_ne _ _ _ _ (by decide), lookup_setField_self]
      have h2 : lookupField L "attributes" = some (Json.arr attrs) := by
        rw [hL, lookup_setField_self]
      rw [h1, h2]
      simp only [arrOrNil, hfix]
      rw [coerceArr_coerceArr, setField_of_lookup _ _ _ h1, setField_of_lookup _ _ _ h2]

/-- A normalized relationship is a fixed point of relationship
normalization. -/
lemma adaptRelationship_fix (r x : Json) (h : adaptRelationship r = .ok x) :
    adaptRelationship x = .ok x := by
  match hn : isNull r with
  | true => simp [adaptRelationship, hn] at h
  | false =>
    simp only [adaptRelationship, hn, Bool.false_eq_true, if_false] at h
    have hx : x = Json.obj (setField (spreadBase r) "alternatives"
        (coerceArr (Json.getField r "alternatives"))) := by
      cases h; rfl
    subst hx
    rw [adaptRelationship_on_obj]
    have h1 : lookupField (setField (spreadBase r) "alternatives"
        (coerceArr (Json.getField r "alternatives"))) "alternatives"
        = some (coerceArr (Json.getField r "alternatives")) := lookup_setField_self _ _ _
    rw [h1, coerceArr_coerceArr, setField_of_lookup _ _ _ h1]

/-- Reduction of the normalizer at a canonical belief-state object. -/
lemma adaptToBeliefState_on_canonical (es rs : List Json) (q p : String) :
    adaptToBeliefState (Json.obj [("entities", Json.arr es), ("relationships", Json.arr rs),
      ("prompt", Json.str q)]) p
    = (match exMapM adaptEntity es with
       | .error msg => Except.error msg
       | .ok es2 =>
         match exMapM adaptRelationship rs with
         | .error msg => Except.error msg
         | .ok rs2 =>
           Except.ok (Json.obj [("entities", Json.arr es2), ("relationships", Json.arr rs2),
             ("prompt", Json.str p)])) := rfl

/- ## Claims C6 and C3: canonicalization -/

/-- Claim C6 (confirmed): normalization is idempotent.  Whenever
adaptToBeliefState succeeds on a raw value, applying it again to its own
output (holding the prompt fixed) succeeds and returns the identical belief
state. -/
theorem c6_normalization_idempotent (raw : Json) (p : String) (out : Json)
    (h : adaptToBeliefState raw p = .ok out) :
    adaptToBeliefState out p = .ok out := by
  match hn : isNull raw with
  | true => simp [adaptToBeliefState, hn] at h
  | false =>
    simp only [adaptToBeliefState, hn, Bool.false_eq_true, if_false] at h
    match hm1 : exMapM adaptEntity (arrOrNil (Json.getField raw "entities")) with
    | .error msg => rw [hm1] at h; exact Except.noConfusion h
    | .ok es =>
      rw [hm1] at h
      match hm2 : exMapM adaptRelationship (arrOrNil (Json.getField raw "relationships")) with
      | .error msg => rw [hm2] at h; exact Except.noConfusion h
      | .ok rs =>
        rw [hm2] at h
        have hx : out = Json.obj [("entities", Json.arr es), ("relationships", Json.arr rs),
            ("prompt", Json.str p)] := by cases h; rfl
        subst hx
        have hes : exMapM adaptEntity es = .ok es :=
          exMapM_fix (fun y hy => by
            obtain ⟨x0, hx0⟩ := exMapM_ok_mem hm1 y hy
            exact adaptEntity_fix x0 y hx0)
        have hrs : exMapM adaptRelationship rs = .ok rs :=
          exMapM_fix (fun y hy => by
            obtain ⟨x0, hx0⟩ := exMapM_ok_mem hm2 y hy
            exact adaptRelationship_fix x0 y hx0)
        rw [adaptToBeliefState_on_canonical, hes, hrs]

/-- Witness for C6: the round-trip input of the specification, normalized
once and again, with the identical canonical result. -/
theorem c6_normalization_idempotent_witness :
    adaptToBeliefState (Json.obj [("entities", Json.arr [Json.obj [("name", Json.str "cat"),
        ("alternatives", Json.arr [Json.obj [("name", Json.str "a")], Json.obj [("name", Json.str "b")]]),
        ("attributes", Json.arr [])]]),
      ("relationships", Json.arr []), ("prompt", Json.str "p")]) "p"
    = .ok (Json.obj [("entities", Json.arr [Json.obj [("name", Json.str "cat"),
        ("alternatives", Json.arr [Json.obj [("name", Json.str "a")], Json.obj [("name", Json.str "b")]]),
        ("attributes", Json.arr [])]]),
      ("relationships", Json.arr []), ("prompt", Json.str "p")]) :=
  c6_normalization_idempotent
    (Json.obj [("entities", Json.arr [Json.obj [("name", Json.str "cat"),
        ("alternatives", Json.arr [Json.str "a", Json.str "b"])]]),
      ("relationships", Json.arr [])]) "p" _ rfl

/-- Claim C3 (corrected): a raw entity lacking both presence_in_prompt and
attributes normalizes to an entity with attributes empty but with NO
presence_in_prompt field at all (the entity level is not defaulted; the
claim said it becomes false). -/
theorem c3_counterexample :
    adaptToBeliefState (Json.obj [("entities", Json.arr [Json.obj []]),
        ("relationships", Json.arr [])]) "p"
      = Except.ok (Json.obj [("entities", Json.arr [Json.obj [("alternatives", Json.arr []),
          ("attributes", Json.arr [])]]),
        ("relationships", Json.arr []), ("prompt", Json.str "p")]) ∧
    Json.getField (Json.obj [("alternatives", Json.arr []), ("attributes", Json.arr [])])
        "presence_in_prompt" = none :=
  ⟨rfl, rfl⟩

/-- Claim C3 (amended): a raw entity object lacking the attributes field
normalizes with attributes defaulted to the empty list while its
presence_in_prompt field is passed through unchanged (in particular it stays
absent when missing); and an attribute object lacking presence_in_prompt
gets presence_in_prompt defaulted to false. -/
theorem c3_defaults_amended :
    (∀ (fs : List (String × Json)) (out : Json),
        lookupField fs "attributes" = none →
        adaptEntity (Json.obj fs) = .ok out →
        Json.getField out "attributes" = some (Json.arr []) ∧
        Json.getField out "presence_in_prompt" = lookupField fs "presence_in_prompt") ∧
    (∀ (gs : List (String × Json)) (out : Json),
        lookupField gs "presence_in_prompt" = none →
        adaptAttribute (Json.obj gs) = .ok out →
        Json.getField out "presence_in_prompt" = some (Json.bool false)) := by
  constructor
  · intro fs out h hok
    rw [adaptEntity_on_obj, h] at hok
    have hx : out = Json.obj (setField
        (setField fs "alternatives" (coerceArr (lookupField fs "alternatives")))
        "attributes" (Json.arr [])) := by cases hok; rfl
    subst hx
    constructor
    · show lookupField _ "attributes" = _
      rw [lookup_setField_self]
    · show lookupField _ "presence_in_prompt" = _
      rw [lookup_setField_ne _ _ _ _ (by decide), lookup_setField_ne _ _ _ _ (by decide)]
  · intro gs out h hok
    rw [adaptAttribute_on_obj, h] at hok
    have hx : out = Json.obj (setField
        (setField gs "presence_in_prompt" (presDefault none))
        "value" (coerceArr (lookupField gs "value"))) := by cases hok; rfl
    subst hx
    show lookupField _ "presence_in_prompt" = _
    rw [lookup_setField_ne _ _ _ _ (by decide), lookup_setField_self]
    rfl

/-- Witness for the amended C3 at the empty raw entity and attribute. -/
theorem c3_defaults_amended_witness :
    Json.getField (Json.obj [("alternatives", Json.arr []), ("attributes", Json.arr [])])
        "attributes" = some (Json.arr []) ∧
    Json.getField (Json.obj [("presence_in_prompt", Json.bool false), ("value", Json.arr [])])
        "presence_in_prompt" = some (Json.bool false) :=
  ⟨(c3_defaults_amended.1 [] _ rfl rfl).1, c3_defaults_amended.2 [] _ rfl rfl⟩

/- ## Claim C4: JSON extraction -/

/-- Everything before the last occurrence of an occurring target is kept. -/
lemma takeToLastIncl_append (t : Char) (xs ys : List Char) (h : t ∉ ys) :
    takeToLastIncl t (xs ++ t :: ys) = xs ++ [t] := by
  induction xs with
  | nil => simp [takeToLastIncl, h]
  | cons c xs ih =>
    have hm : t ∈ xs ++ t :: ys := by simp
    simp [takeToLastIncl, hm, ih]

/-- A character that opens neither span form is skipped by the matcher. -/
lemma findMatch_cons_skip (c : Char) (rest : List Char) (h1 : c ≠ '{') (h2 : c ≠ '[') :
    findMatch (c :: rest) = findMatch rest := by
  simp [findMatch, h1, h2]

/-- The matcher finds the greedy brace span: from the first opening brace
with a later closer, to the last closing brace of the text. -/
lemma findMatch_braces (pre mid post : List Char)
    (hpre : ∀ ch ∈ pre, ch ≠ '{' ∧ ch ≠ '[') (hpost : '}' ∉ post) :
    findMatch (pre ++ '{' :: (mid ++ '}' :: post)) = some ('{' :: (mid ++ ['}'])) := by
  induction pre with
  | nil =>
    have hm : '}' ∈ mid ++ '}' :: post := by simp
    simp only [List.nil_append]
    simp [findMatch, hm, takeToLastIncl_append _ _ _ hpost]
  | cons c pre ih =>
    have hc := hpre c (List.mem_cons_self c pre)
    rw [List.cons_append, findMatch_cons_skip c _ hc.1 hc.2]
    exact ih (fun ch hch => hpre ch (List.mem_cons_of_mem c hch))

/-- Without any opener the matcher finds nothing. -/
lemma findMatch_none_of (cs : List Char) (h : ∀ ch ∈ cs, ch ≠ '{' ∧ ch ≠ '[') :
    findMatch cs = none := by
  induction cs with
  | nil => rfl
  | cons c rest ih =>
    have hc := h c (List.mem_cons_self c rest)
    rw [findMatch_cons_skip c rest hc.1 hc.2]
    exact ih (fun ch hch => h ch (List.mem_cons_of_mem c hch))

/-- Claim C4 (corrected): on text holding a balanced brace span followed by
a later stray closing brace, extraction as implemented fails with the fixed
invalid-format error although the balanced-span algorithm of the
specification succeeds on the same text: the source regex is greedy up to
the last closer and the thrown error does not carry the offending text. -/
theorem c4_counterexample :
    extractJson "\x7b\"a\":1\x7d \x7d" = Except.error "Invalid AI response format" ∧
    extractJsonSpec "\x7b\"a\":1\x7d \x7d" = Except.ok (Json.obj [("a", Json.num "1")]) :=
  ⟨rfl, rfl⟩

/-- Claim C4 (amended): JSON extraction locates the span starting at the
first opening brace that has a later closing brace (or bracket with a later
closing bracket) and extending greedily to the LAST such closer in the whole
text, and parses that span; when no such span exists it parses the whole
text; and any parse failure yields the fixed invalid-format error (the
offending text is only logged), never partial data. -/
theorem c4_extraction_amended :
    (∀ (pre mid post : List Char),
        (∀ ch ∈ pre, ch ≠ '{' ∧ ch ≠ '[') → '}' ∉ post →
        extractJson (String.mk (pre ++ '{' :: (mid ++ '}' :: post)))
          = parseOrFail (String.mk ('{' :: (mid ++ ['}'])))) ∧
    (∀ (s : String), (∀ ch ∈ s.toList, ch ≠ '{' ∧ ch ≠ '[') → extractJson s = parseOrFail s) ∧
    (∀ (s msg : String), jsonParse s = Except.error msg → findMatch s.toList = none →
        extractJson s = Except.error "Invalid AI response format") := by
  refine ⟨?_, ?_, ?_⟩
  · intro pre mid post h1 h2
    have ht : (String.mk (pre ++ '{' :: (mid ++ '}' :: post))).toList
        = pre ++ '{' :: (mid ++ '}' :: post) := rfl
    simp only [extractJson, ht, findMatch_braces pre mid post h1 h2]
  · intro s h
    simp only [extractJson, findMatch_none_of s.toList h]
  · intro s msg h hf
    simp only [extractJson, hf, parseOrFail, h]

/-- Witness for the amended C4: prose around a brace span with trailing
text but no trailing closer parses the greedy span successfully. -/
theorem c4_extraction_amended_witness :
    extractJson (String.mk (['x'] ++ '{' :: ("\"k\":2".toList ++ '}' :: [' ', '!'])))
      = Except.ok (Json.obj [("k", Json.num "2")]) :=
  (c4_extraction_amended.1 ['x'] "\"k\":2".toList [' ', '!'] (by decide) (by decide)).trans rfl

/- ## Claim C1: malformed provider output -/

/-- Claim C1 (corrected): on non-JSON prose the generic providers do NOT
return an empty belief graph; generateBeliefGraph propagates the extraction
error (shown for mistral), while the gemini path does fall back to the empty
graph. -/
theorem c1_counterexample :
    generateBeliefGraph Provider.mistral "I cannot produce JSON for that request." "p"
      = Except.error "Invalid AI response format" ∧
    generateBeliefGraph Provider.gemini "I cannot produce JSON for that request." "p"
      = Except.ok (emptyBelief "p") :=
  ⟨rfl, rfl⟩

/-- Claim C1 (amended): for the gemini provider any failure of the model
call and any unparsable response text yield the empty belief graph; for
every other configured provider a malformed response makes
generateBeliefGraph propagate the invalid-format extraction error to its
caller instead of returning an empty graph. -/
theorem c1_malformed_amended :
    (∀ (e : JsError) (p : String), parsePromptToBeliefGraph (.error e) p = emptyBelief p) ∧
    (∀ (t : Option String) (p : String),
        isOkB (jsonParse (jsTrim (t.getD ""))) = false →
        parsePromptToBeliefGraph (.ok t) p = emptyBelief p) ∧
    (∀ (t p : String), isOkB (jsonParse (jsTrim t)) = false →
        generateBeliefGraph Provider.gemini t p = .ok (emptyBelief p)) ∧
    (∀ (prov : Provider) (t p msg : String), prov ≠ Provider.gemini →
        extractJson t = Except.error msg → generateBeliefGraph prov t p = Except.error msg) := by
  have key : ∀ (t : Option String) (p : String),
      isOkB (jsonParse (jsTrim (t.getD ""))) = false →
      parsePromptToBeliefGraph (.ok t) p = emptyBelief p := by
    intro t p h
    match hj : jsonParse (jsTrim (t.getD "")) with
    | .error msg => simp only [parsePromptToBeliefGraph, hj]
    | .ok v => rw [hj] at h; exact absurd h (by simp [isOkB])
  refine ⟨fun e p => rfl, key, ?_, ?_⟩
  · intro t p h
    show Except.ok (parsePromptToBeliefGraph (.ok (some t)) p) = .ok (emptyBelief p)
    rw [key (some t) p h]
  · intro prov t p msg hne hext
    cases prov <;> first
      | exact absurd rfl hne
      | simp only [generateBeliefGraph, hext]

/-- Witness for the amended C1: the same prose text through the gemini path
and a generic path. -/
theorem c1_malformed_amended_witness :
    generateBeliefGraph Provider.gemini "oops" "p" = Except.ok (emptyBelief "p") ∧
    generateBeliefGraph Provider.openrouter "oops" "p"
      = Except.error "Invalid AI response format" :=
  ⟨c1_malformed_amended.2.2.1 "oops" "p" rfl,
   c1_malformed_amended.2.2.2 Provider.openrouter "oops" "p" "Invalid AI response format"
     (by decide) rfl⟩

/- ## Claim C5: retry bound -/

/-- An operation that fails with a retryable error on every attempt runs the
loop to exhaustion: with a positive budget, the number of calls equals the
budget and the last error is rethrown. -/
lemma withRetryGo_allRetry {α : Type} (es : Nat → JsError)
    (hre : ∀ i, isRetryableError (es i) = true) :
    ∀ (n calls : Nat) (last : Option JsError),
      withRetryGo (α := α) (fun i => Except.error (es i)) (n + 1) calls last
        = (Except.error (es (calls + n)), calls + n + 1) := by
  intro n
  induction n with
  | zero =>
    intro calls last
    simp [withRetryGo, hre calls]
  | succ n ih =>
    intro calls last
    have step : withRetryGo (α := α) (fun i => Except.error (es i)) (n + 1 + 1) calls last
        = if isRetryableError (es calls) = true
          then withRetryGo (α := α) (fun i => Except.error (es i)) (n + 1) (calls + 1) (some (es calls))
          else (Except.error (es calls), calls + 1) := rfl
    rw [step, if_pos (hre calls), ih (calls + 1) (some (es calls))]
    have h1 : calls + 1 + n = calls + (n + 1) := by omega
    rw [h1]

/-- Claim C5 (confirmed): an operation that always fails with a retryable
error (such as a 503) is invoked exactly maxAttempts times and withRetry then
raises the last error; an operation whose first failure is non-retryable
(such as a 404 not-found) is invoked exactly once and that error propagates
immediately. -/
theorem c5_retry_bound :
    (∀ (α : Type) (es : Nat → JsError) (n : Nat), 1 ≤ n →
        (∀ i, isRetryableError (es i) = true) →
        withRetry (α := α) (fun i => Except.error (es i)) n
          = (Except.error (es (n - 1)), n)) ∧
    (∀ (α : Type) (fn : Nat → Except JsError α) (err : JsError) (n : Nat), 1 ≤ n →
        fn 0 = Except.error err → isRetryableError err = false →
        withRetry fn n = (Except.error err, 1)) := by
  constructor
  · intro α es n hn hre
    match n, hn with
    | m + 1, _ =>
      rw [withRetry, withRetryGo_allRetry es hre m 0 none]
      simp
  · intro α fn err n hn h hnr
    match n, hn with
    | m + 1, _ =>
      simp only [withRetry, withRetryGo, h, hnr, Bool.false_eq_true, if_false]

/-- A retryable upstream overload error. -/
def e503 : JsError := { message := "upstream \"code\":503 service unavailable" }

/-- The non-retryable not-found error. -/
def e404 : JsError := { message := "Requested entity was not found." }

/-- Witness for C5 with maxAttempts three: three calls for the 503, one call
for the 404. -/
theorem c5_retry_bound_witness :
    withRetry (α := Json) (fun _ => Except.error e503) 3 = (Except.error e503, 3) ∧
    withRetry (α := Json) (fun _ => Except.error e404) 3 = (Except.error e404, 1) :=
  ⟨c5_retry_bound.1 Json (fun _ => e503) 3 (by decide) (fun _ => rfl),
   c5_retry_bound.2 Json (fun _ => Except.error e404) e404 3 (by decide) rfl rfl⟩

/- ## Claim C8: bounded tool-call loop -/

/-- The loop never runs more rounds than its budget. -/
lemma toolLoop_rounds_le (gen : List Json → Except String GenResponse) :
    ∀ (n : Nat) (chat : List Json) (r : GenResponse) (rounds : Nat) (res : GenResponse × Nat),
      toolLoop gen n chat r rounds = .ok res → res.2 ≤ rounds + n := by
  intro n
  induction n with
  | zero =>
    intro chat r rounds res h
    simp only [toolLoop] at h
    cases h
    simp
  | succ n ih =>
    intro chat r rounds res h
    simp only [toolLoop] at h
    by_cases hv : r.functionCalls.isEmpty = true
    · rw [if_pos hv] at h
      cases h
      omega
    · rw [if_neg hv] at h
      match he : execAll r.functionCalls with
      | .error err => rw [he] at h; exact Except.noConfusion h
      | .ok parts =>
        rw [he] at h
        replace h : (match gen (chat ++ [r.content, toolTurn parts]) with
            | Except.error err => (Except.error err : Except String (GenResponse × Nat))
            | Except.ok r2 => toolLoop gen n (chat ++ [r.content, toolTurn parts]) r2 (rounds + 1))
            = Except.ok res := h
        match hg : gen (chat ++ [r.content, toolTurn parts]) with
        | .error err => rw [hg] at h; exact Except.noConfusion h
        | .ok r2 =>
          rw [hg] at h
          have := ih _ r2 (rounds + 1) res h
          omega

/-- All calls of a round executable means the round executes. -/
lemma execAll_ok (l : List FnCall)
    (h : ∀ fc ∈ l, isOkB (executeTool fc.name fc.args) = true) :
    ∃ parts, execAll l = .ok parts := by
  induction l with
  | nil => exact ⟨[], rfl⟩
  | cons fc rest ih =>
    have h1 := h fc (List.mem_cons_self fc rest)
    obtain ⟨parts, hp⟩ := ih (fun x hx => h x (List.mem_cons_of_mem fc hx))
    match he : executeTool fc.name fc.args with
    | .error err => rw [he] at h1; simp [isOkB] at h1
    | .ok result => exact ⟨frPart fc result :: parts, by simp only [execAll, he, hp]⟩

/-- Every tool call of the response can be executed by the tool table. -/
def toolsOk (r : GenResponse) : Prop :=
  ∀ fc ∈ r.functionCalls, isOkB (executeTool fc.name fc.args) = true

/-- When every response keeps signalling executable calls, the loop spends
its whole budget and returns the last response, still with calls pending. -/
lemma toolLoop_saturates (gen : List Json → Except String GenResponse)
    (hgen : ∀ chat, ∃ r2, gen chat = .ok r2 ∧ r2.functionCalls ≠ [] ∧ toolsOk r2) :
    ∀ (n : Nat) (chat : List Json) (r : GenResponse) (rounds : Nat),
      r.functionCalls ≠ [] → toolsOk r →
      ∃ rL, toolLoop gen n chat r rounds = .ok (rL, rounds + n) ∧ rL.functionCalls ≠ [] := by
  intro n
  induction n with
  | zero =>
    intro chat r rounds hne _
    exact ⟨r, by simp [toolLoop], hne⟩
  | succ n ih =>
    intro chat r rounds hne hok
    obtain ⟨parts, hp⟩ := execAll_ok r.functionCalls hok
    obtain ⟨r2, hg, hne2, hok2⟩ := hgen (chat ++ [r.content, toolTurn parts])
    obtain ⟨rL, hL, hneL⟩ := ih (chat ++ [r.content, toolTurn parts]) r2 (rounds + 1) hne2 hok2
    refine ⟨rL, ?_, hneL⟩
    have hv : r.functionCalls.isEmpty = false := by
      cases hfc : r.functionCalls with
      | nil => exact absurd hfc hne
      | cons a l => rfl
    simp only [toolLoop, hv, Bool.false_eq_true, if_false, hp, hg]
    have harr : rounds + (n + 1) = (rounds + 1) + n := by omega
    rw [harr]
    exact hL

/-- Claim C8 (confirmed): the native tool loop is bounded by five rounds,
and when the model keeps signalling function calls every round the adapter
executes exactly five rounds and then returns the last response as-is, with
its function calls still pending and no error raised. -/
theorem c8_tool_loop_bounded :
    (∀ (first : Except String GenResponse) (gen : List Json → Except String GenResponse)
        (contents : String) (r : GenResponse) (n : Nat),
        handleContentWithTools first gen contents = Except.ok (r, n) → n ≤ 5) ∧
    (∀ (r0 : GenResponse) (gen : List Json → Except String GenResponse) (contents : String),
        r0.functionCalls ≠ [] → toolsOk r0 →
        (∀ chat, ∃ r2, gen chat = Except.ok r2 ∧ r2.functionCalls ≠ [] ∧ toolsOk r2) →
        ∃ rL, handleContentWithTools (Except.ok r0) gen contents = Except.ok (rL, 5) ∧
          rL.functionCalls ≠ []) := by
  constructor
  · intro first gen contents r n h
    match first with
    | .error err => simp [handleContentWithTools] at h
    | .ok r0 =>
      simp only [handleContentWithTools] at h
      have := toolLoop_rounds_le gen 5 (initialChat contents) r0 0 (r, n) h
      simpa using this
  · intro r0 gen contents hne hok hgen
    obtain ⟨rL, hL, hneL⟩ := toolLoop_saturates gen hgen 5 (initialChat contents) r0 0 hne hok
    exact ⟨rL, by simpa [handleContentWithTools] using hL, hneL⟩

/-- One executable creative-context tool call. -/
def demoCall : FnCall where
  id := none
  name := "get_creative_context"
  args := some (Json.obj [("mode", Json.str "image"), ("topic", Json.str "cats")])

/-- A model response that always asks for the demo tool call. -/
def demoResp : GenResponse where
  functionCalls := [demoCall]
  content := Json.obj [("role", Json.str "model")]
  text := none

/-- Witness for C8: with a model that always signals the demo call, exactly
five rounds run and the final response still carries calls. -/
theorem c8_tool_loop_bounded_witness :
    ∃ rL, handleContentWithTools (Except.ok demoResp) (fun _ => Except.ok demoResp) "go"
        = Except.ok (rL, 5) ∧ rL.functionCalls ≠ [] := by
  have hne : demoResp.functionCalls ≠ [] := by simp [demoResp, demoCall]
  have hok : toolsOk demoResp := by
    intro fc hfc
    have hfc2 : fc ∈ [demoCall] := hfc
    rw [List.mem_singleton] at hfc2
    subst hfc2
    rfl
  exact c8_tool_loop_bounded.2 demoResp (fun _ => Except.ok demoResp) "go" hne hok
    (fun _ => ⟨demoResp, rfl, hne, hok⟩)

/- ## Claim C2: staleness suppression -/

/-- Claim C2 (confirmed): an asynchronous analysis result is committed only
when the current mode still equals the captured mode and the analysis
counter still equals the captured token; otherwise commit is a no-op.  In
particular, issuing an analysis and then switching mode (which increments
the counter) makes the later commit of that analysis a no-op; and when both
checks pass the belief graph is committed. -/
theorem c2_staleness_suppression :
    (∀ (s : AppState) (cap : AnalysisCapture) (g cl : Json),
        ¬(s.mode = cap.mode ∧ s.analysisToken = cap.token) →
        commitGraph s cap g = s ∧ commitClarifications s cap cl = s) ∧
    (∀ (s : AppState) (p : String) (qs : List String) (m' : Mode) (g cl : Json),
        m' ≠ s.mode →
        commitGraph (handleModeChange (refreshAnalysisStart s p qs s.mode).1 m')
            (refreshAnalysisStart s p qs s.mode).2 g
          = handleModeChange (refreshAnalysisStart s p qs s.mode).1 m' ∧
        commitClarifications (handleModeChange (refreshAnalysisStart s p qs s.mode).1 m')
            (refreshAnalysisStart s p qs s.mode).2 cl
          = handleModeChange (refreshAnalysisStart s p qs s.mode).1 m') ∧
    (∀ (s : AppState) (cap : AnalysisCapture) (fs : List (String × Json)),
        s.mode = cap.mode → s.analysisToken = cap.token →
        commitGraph s cap (Json.obj fs) = { s with beliefGraph := some (Json.obj fs) }) := by
  refine ⟨?_, ?_, ?_⟩
  · intro s cap g cl h
    exact ⟨by simp [commitGraph, h], by simp [commitClarifications, h]⟩
  · intro s p qs m' g cl h
    constructor
    · simp [refreshAnalysisStart, handleModeChange, commitGraph, h]
    · simp [refreshAnalysisStart, handleModeChange, commitClarifications, h]
  · intro s cap fs h1 h2
    simp [commitGraph, h1, h2, jsTruthy]

/-- Witness for C2: from the initial state, issue an analysis for the
current mode, switch to story mode, and observe that committing the stale
result leaves the state unchanged. -/
theorem c2_staleness_suppression_witness :
    commitGraph (handleModeChange (refreshAnalysisStart initialState "p" [] initialState.mode).1
        Mode.story)
      (refreshAnalysisStart initialState "p" [] initialState.mode).2 (Json.obj [])
      = handleModeChange (refreshAnalysisStart initialState "p" [] initialState.mode).1
          Mode.story :=
  (c2_staleness_suppression.2.1 initialState "p" [] Mode.story (Json.obj []) (Json.arr [])
    (by decide)).1

/- ## Claims C7, C9, C10: reconciliation -/

/-- Reading the gallery slot just set. -/
lemma galleryErrors_get_set (g : GalleryErrors) (m : Mode) (v : Option String) :
    (g.set m v).get m = v := by
  cases m <;> rfl

/-- Claim C7 (confirmed): when the refine call fails, all three groups of
pending edits, the prompt and the outdated flag are preserved unchanged and
the per-mode gallery error is surfaced; only on success are pending edits
cleared, the returned text installed as the prompt, and the state marked
outdated. -/
theorem c7_refine_failure_preserves (s : AppState) (e : JsError) (t : String)
    (h : s.isUpdatingPrompt = false) :
    applyUpdatesStart s = some (applyStartCore s) ∧
    ((applyUpdatesFinish (applyStartCore s).1 (applyStartCore s).2
        (applyStartCore s).2.requestMode (Except.error e)).pendingAttributeUpdates
        = s.pendingAttributeUpdates ∧
     (applyUpdatesFinish (applyStartCore s).1 (applyStartCore s).2
        (applyStartCore s).2.requestMode (Except.error e)).pendingRelationshipUpdates
        = s.pendingRelationshipUpdates ∧
     (applyUpdatesFinish (applyStartCore s).1 (applyStartCore s).2
        (applyStartCore s).2.requestMode (Except.error e)).pendingClarificationAnswers
        = s.pendingClarificationAnswers ∧
     (applyUpdatesFinish (applyStartCore s).1 (applyStartCore s).2
        (applyStartCore s).2.requestMode (Except.error e)).prompt = s.prompt ∧
     (applyUpdatesFinish (applyStartCore s).1 (applyStartCore s).2
        (applyStartCore s).2.requestMode (Except.error e)).isOutdated = s.isOutdated ∧
     GalleryErrors.get (applyUpdatesFinish (applyStartCore s).1 (applyStartCore s).2
        (applyStartCore s).2.requestMode (Except.error e)).galleryErrors
        (applyStartCore s).2.requestMode = some "Failed to refine prompt.") ∧
    ((applyUpdatesFinish (applyStartCore s).1 (applyStartCore s).2
        (applyStartCore s).2.requestMode (Except.ok t)).pendingAttributeUpdates = [] ∧
     (applyUpdatesFinish (applyStartCore s).1 (applyStartCore s).2
        (applyStartCore s).2.requestMode (Except.ok t)).pendingRelationshipUpdates = [] ∧
     (applyUpdatesFinish (applyStartCore s).1 (applyStartCore s).2
        (applyStartCore s).2.requestMode (Except.ok t)).pendingClarificationAnswers = [] ∧
     (applyUpdatesFinish (applyStartCore s).1 (applyStartCore s).2
        (applyStartCore s).2.requestMode (Except.ok t)).prompt = t ∧
     (applyUpdatesFinish (applyStartCore s).1 (applyStartCore s).2
        (applyStartCore s).2.requestMode (Except.ok t)).isOutdated = true) := by
  refine ⟨by simp [applyUpdatesStart, h], ?_, ?_⟩
  · simp [applyUpdatesFinish, applyStartCore, galleryErrors_get_set]
  · simp [applyUpdatesFinish, applyStartCore, refreshAnalysisStart]

/-- Witness for C7 at the initial state with a failing refine call. -/
theorem c7_refine_failure_preserves_witness :
    initialState.isUpdatingPrompt = false ∧
    (applyUpdatesFinish (applyStartCore initialState).1 (applyStartCore initialState).2
        (applyStartCore initialState).2.requestMode
        (Except.error { message := "boom" })).pendingAttributeUpdates
      = initialState.pendingAttributeUpdates ∧
    GalleryErrors.get (applyUpdatesFinish (applyStartCore initialState).1
        (applyStartCore initialState).2 (applyStartCore initialState).2.requestMode
        (Except.error { message := "boom" })).galleryErrors
        (applyStartCore initialState).2.requestMode = some "Failed to refine prompt." :=
  ⟨rfl,
   ((c7_refine_failure_preserves initialState { message := "boom" } "t" rfl).2.1).1,
   ((c7_refine_failure_preserves initialState { message := "boom" } "t" rfl).2.1).2.2.2.2.2⟩

/-- Claim C9 (confirmed): for the gemini provider the refine operation never
raises: a failed model call returns the original prompt, so the caller runs
its success path, which clears the pending edits and marks the state
outdated while the prompt stays the original one. -/
theorem c9_gemini_refine_total (s : AppState) (e : JsError)
    (_h : s.isUpdatingPrompt = false) :
    (∀ (orig : String), refinePromptWithAllUpdates (Except.error e) orig = orig) ∧
    ((applyUpdatesFinish (applyStartCore s).1 (applyStartCore s).2
        (applyStartCore s).2.requestMode
        (Except.ok (refinePromptWithAllUpdates (Except.error e) s.prompt))).prompt = s.prompt ∧
     (applyUpdatesFinish (applyStartCore s).1 (applyStartCore s).2
        (applyStartCore s).2.requestMode
        (Except.ok (refinePromptWithAllUpdates (Except.error e) s.prompt))).isOutdated = true ∧
     (applyUpdatesFinish (applyStartCore s).1 (applyStartCore s).2
        (applyStartCore s).2.requestMode
        (Except.ok (refinePromptWithAllUpdates (Except.error e) s.prompt))).pendingAttributeUpdates
        = [] ∧
     (applyUpdatesFinish (applyStartCore s).1 (applyStartCore s).2
        (applyStartCore s).2.requestMode
        (Except.ok (refinePromptWithAllUpdates (Except.error e) s.prompt))).pendingRelationshipUpdates
        = [] ∧
     (applyUpdatesFinish (applyStartCore s).1 (applyStartCore s).2
        (applyStartCore s).2.requestMode
        (Except.ok (refinePromptWithAllUpdates (Except.error e) s.prompt))).pendingClarificationAnswers
        = []) := by
  refine ⟨fun orig => rfl, ?_⟩
  simp [refinePromptWithAllUpdates, applyUpdatesFinish, applyStartCore, refreshAnalysisStart]

/-- Witness for C9 at the initial state. -/
theorem c9_gemini_refine_total_witness :
    refinePromptWithAllUpdates (Except.error { message := "down" }) initialState.prompt
      = initialState.prompt ∧
    (applyUpdatesFinish (applyStartCore initialState).1 (applyStartCore initialState).2
        (applyStartCore initialState).2.requestMode
        (Except.ok (refinePromptWithAllUpdates (Except.error { message := "down" })
          initialState.prompt))).prompt = initialState.prompt :=
  ⟨(c9_gemini_refine_total initialState { message := "down" } rfl).1 initialState.prompt,
   (c9_gemini_refine_total initialState { message := "down" } rfl).2.1⟩

/-- Claim C10 (confirmed): the newly answered clarification questions are
appended to the answered list already by the synchronous prefix of
handleApplyAllUpdates (before the refine call is issued) and no outcome of
the call, success or failure, rolls this back, so those questions stay
recorded as answered for every later clarification request. -/
theorem c10_answered_monotone (s : AppState) (outcome : Except JsError String)
    (_h : s.isUpdatingPrompt = false) :
    (applyStartCore s).1.answeredQuestions
        = s.answeredQuestions ++ s.pendingClarificationAnswers.map Prod.fst ∧
    (applyUpdatesFinish (applyStartCore s).1 (applyStartCore s).2
        (applyStartCore s).2.requestMode outcome).answeredQuestions
        = s.answeredQuestions ++ s.pendingClarificationAnswers.map Prod.fst ∧
    (∀ q ∈ s.pendingClarificationAnswers.map Prod.fst,
        q ∈ (applyUpdatesFinish (applyStartCore s).1 (applyStartCore s).2
            (applyStartCore s).2.requestMode outcome).answeredQuestions) := by
  have h1 : (applyStartCore s).1.answeredQuestions
      = s.answeredQuestions ++ s.pendingClarificationAnswers.map Prod.fst := by
    simp [applyStartCore]
  have h2 : (applyUpdatesFinish (applyStartCore s).1 (applyStartCore s).2
      (applyStartCore s).2.requestMode outcome).answeredQuestions
      = s.answeredQuestions ++ s.pendingClarificationAnswers.map Prod.fst := by
    cases outcome <;> simp [applyUpdatesFinish, applyStartCore, refreshAnalysisStart]
  refine ⟨h1, h2, fun q hq => ?_⟩
  rw [h2]
  exact List.mem_append_right _ hq

/-- Witness for C10 at the initial state with a failing refine call. -/
theorem c10_answered_monotone_witness :
    (applyUpdatesFinish (applyStartCore initialState).1 (applyStartCore initialState).2
        (applyStartCore initialState).2.requestMode
        (Except.error { message := "boom" })).answeredQuestions
      = initialState.answeredQuestions
        ++ initialState.pendingClarificationAnswers.map Prod.fst :=
  (c10_answered_monotone initialState (Except.error { message := "boom" }) rfl).2.1

end WA
